import Mathlib

/-!
Verification of the session lifecycle engine of `server.js`
(tic-tac-toe multiplayer server): the `Game` class (session state machine),
the `findGame` / `makeMove` / `disconnect` socket handlers (session manager
and matchmaking queue) and the metrics object, shallowly embedded in Lean.

JavaScript numbers are modelled as exact rationals (for durations and the
rolling average) and naturals/integers (for counters; `activeGames` is an
`Int` because the source decrements it with no floor).  The `games` and
`players` `Map`s are association lists with unique keys.  Transport-layer
message delivery is out of scope per the specification; each handler returns
the outcome it would emit to the originating connection.
-/

namespace TicTacToe

/-- The two player markers, the strings `'X'` and `'O'` in the source. -/
inductive Player where
  | X
  | O
deriving DecidableEq, Repr

/-- `currentTurn === 'X' ? 'O' : 'X'` (line 42 of `server.js`). -/
def Player.other : Player → Player
  | .X => .O
  | .O => .X

/-- A board cell: `null` or a marker. -/
abbrev Cell := Option Player

/-- The value read by a JavaScript property access `board[position]` on the
9-element board array: `undefined` when the key is not an index that the
array populates, otherwise the stored cell (`null` or a marker). -/
inductive JsVal where
  | undefined
  | null
  | sym (p : Player)
deriving DecidableEq, Repr

/-- A JavaScript value used as the `position` subscript.  `idx n` stands for
any value whose property key canonicalises to the array index `n`: an integer
number, or the canonical numeric string such as `'3'`.  Negative integers are
`idx` with negative `n`; their property access on the board reads `undefined`.
`nonIdx` stands for every other value (fractional numbers, non-numeric
strings, booleans, objects, ...), whose property access also reads
`undefined`. -/
inductive JsKey where
  | idx (n : Int)
  | nonIdx
deriving DecidableEq, Repr

/-- `this.board[position]`, the read in the guard of `makeMove` (line 35). -/
def jsGet (board : List Cell) : JsKey → JsVal
  | .idx n =>
      if n < 0 then .undefined
      else
        match board[n.toNat]? with
        | none => .undefined
        | some none => .null
        | some (some p) => .sym p
  | .nonIdx => .undefined

/-- `this.board[position] = symbol` (line 39).  In `makeMove` the store is
only reached when `jsGet` returned `null`, i.e. in bounds, where the
JavaScript array store is exactly `List.set`; the out-of-bounds cases of this
model are unreachable there. -/
def jsSet (board : List Cell) (k : JsKey) (v : Cell) : List Cell :=
  match k with
  | .idx n => if n < 0 then board else board.set n.toNat v
  | .nonIdx => board

/-- The `Game` class of `server.js` (lines 19-78).  `playerX` / `playerO` are
the `players: { X: player1, O: player2 }` connection ids; `startTime` is
`Date.now()` in milliseconds. -/
structure Game where
  roomId : String
  board : List Cell
  playerX : String
  playerO : String
  currentTurn : Player
  winner : Option Player
  isDraw : Bool
  moveCount : Nat
  startTime : Nat
deriving DecidableEq, Repr

/-- The `Game` constructor (lines 20-32). -/
def Game.new (roomId player1 player2 : String) (now : Nat) : Game :=
  { roomId := roomId
    board := List.replicate 9 none
    playerX := player1
    playerO := player2
    currentTurn := .X
    winner := none
    isDraw := false
    moveCount := 0
    startTime := now }

/-- The `winPatterns` array of `checkWinner` (lines 47-51): three rows, three
columns, two diagonals, in source order. -/
def winPatterns : List (Nat × Nat × Nat) :=
  [(0, 1, 2), (3, 4, 5), (6, 7, 8),
   (0, 3, 6), (1, 4, 7), (2, 5, 8),
   (0, 4, 8), (2, 4, 6)]

/-- One iteration of the `checkWinner` loop (lines 53-61):
`board[a] && board[a] === board[b] && board[a] === board[c]` yields the marker
`board[a]`, otherwise nothing.  The pattern indices are the constants `0..8`,
always within the 9-cell board, read here with `getD _ none`. -/
def lineWinner (board : List Cell) (t : Nat × Nat × Nat) : Option Player :=
  match board.getD t.1 none with
  | none => none
  | some p =>
      if board.getD t.2.1 none = some p ∧ board.getD t.2.2 none = some p then
        some p
      else none

/-- The `for (let pattern of winPatterns)` loop with its early `return`. -/
def findWinner (board : List Cell) : List (Nat × Nat × Nat) → Option Player
  | [] => none
  | t :: rest =>
      match lineWinner board t with
      | some p => some p
      | none => findWinner board rest

/-- `Game.checkWinner` (lines 46-66): the first winning line in enumeration
order sets `winner`; otherwise, a full board (`moveCount === 9`) sets
`isDraw`. -/
def Game.checkWinner (g : Game) : Game :=
  match findWinner g.board winPatterns with
  | some p => { g with winner := some p }
  | none => if g.moveCount = 9 then { g with isDraw := true } else g

/-- `Game.makeMove` (lines 34-44).  Rejects when the addressed cell is not
`null` (occupied — or any out-of-range or non-index position, which reads
`undefined`) or a terminal flag is set; otherwise stores the symbol,
increments the counter, runs `checkWinner`, and unconditionally flips
`currentTurn`.  The function takes no role/turn check of its own. -/
def Game.makeMove (g : Game) (position : JsKey) (symbol : Player) : Bool × Game :=
  if jsGet g.board position ≠ JsVal.null ∨ g.winner.isSome ∨ g.isDraw then
    (false, g)
  else
    let g1 : Game :=
      { g with board := jsSet g.board position (some symbol),
               moveCount := g.moveCount + 1 }
    let g2 := g1.checkWinner
    (true, { g2 with currentTurn := g2.currentTurn.other })

/-- A whole sequence of `makeMove` submissions (accepted or rejected ones). -/
def Game.applyMoves (g : Game) : List (JsKey × Player) → Game
  | [] => g
  | m :: ms => ((g.makeMove m.1 m.2).2).applyMoves ms

/-- Number of non-empty cells of a board. -/
def countSome (board : List Cell) : Nat :=
  board.countP fun c => c.isSome

/-- The metric fields the session lifecycle mutates (lines 81-87 and the
handlers).  `activeGames` is an `Int` because the source decrements it with no
floor; the rolling average is an exact rational standing for the source's
floating-point number.  The connection counters are maintained by the
transport-driven `connection` handler, which is out of scope. -/
structure Metrics where
  totalGames : Nat
  activeGames : Int
  averageGameDuration : ℚ
deriving DecidableEq, Repr

/-- The initial `metrics` object. -/
def Metrics.initial : Metrics :=
  { totalGames := 0, activeGames := 0, averageGameDuration := 0 }

/-- Lines 176-177 of the terminal branch:
`totalDuration = averageGameDuration * (totalGames - 1) + gameDuration;`
`averageGameDuration = totalDuration / totalGames`.  Note the divisor is
`metrics.totalGames`, the number of games created. -/
def updateAvg (avg : ℚ) (totalGames : Nat) (d : ℚ) : ℚ :=
  (avg * ((totalGames : ℚ) - 1) + d) / (totalGames : ℚ)

/-- A `players.set(id, { roomId, symbol, name })` record (lines 119-120). -/
structure PlayerInfo where
  roomId : String
  symbol : Player
  name : String
deriving DecidableEq, Repr

/-- The closure captured by the 100 ms `setTimeout` cleanup in the terminal
branch of the `makeMove` handler (lines 179-192): the room id, `socket.id`,
the (terminal, hence frozen) game object, and the mover's symbol used there to
look up the opponent id. -/
structure CleanupTask where
  roomId : String
  moverId : String
  game : Game
  moverSymbol : Player
deriving DecidableEq, Repr

/-- `Map.get`: association-list model of a JavaScript `Map` with unique keys
in insertion order. -/
def mapGet {α : Type} (m : List (String × α)) (k : String) : Option α :=
  (m.find? fun e => e.1 == k).map (·.2)

/-- `Map.set`: replace the binding if the key is present, else append. -/
def mapSet {α : Type} (m : List (String × α)) (k : String) (v : α) :
    List (String × α) :=
  if m.any fun e => e.1 == k then
    m.map fun e => if e.1 == k then (k, v) else e
  else m ++ [(k, v)]

/-- `Map.delete`. -/
def mapDel {α : Type} (m : List (String × α)) (k : String) : List (String × α) :=
  m.filter fun e => e.1 != k

/-- The module-level mutable state of `server.js`: the `games` and `players`
maps, the `waitingPlayers` queue, the `metrics` object, and the scheduled but
not yet fired `setTimeout` cleanups of terminal games. -/
structure ServerState where
  games : List (String × Game)
  players : List (String × PlayerInfo)
  waitingPlayers : List String
  metrics : Metrics
  pending : List CleanupTask
deriving DecidableEq, Repr

/-- The state at process start. -/
def ServerState.empty : ServerState :=
  { games := [], players := [], waitingPlayers := [], metrics := Metrics.initial,
    pending := [] }

/-- What the `makeMove` handler emits back to the sender: one of its three
`socket.emit('error', ...)` notices (`'Game not found'`, `'Not your turn'`,
`'Invalid move'`), or acceptance, tagged with whether the broadcast snapshot
carried a terminal flag. -/
inductive MoveOutcome where
  | errGameNotFound
  | errNotYourTurn
  | errInvalidMove
  | ok (terminal : Bool)
deriving DecidableEq, Repr

/-- The `socket.on('makeMove')` handler (lines 150-199).  `now` is
`Date.now()` in milliseconds at the terminal branch.  The game object mutated
in place by the source is written back into the `games` map here; the 100 ms
deferred cleanup is appended to `pending` instead of running inline
(`fireCleanup` is the timer body).  The `gameUpdate` broadcast is a transport
effect and out of scope.  Note the handler looks the game up by the
client-supplied `roomId` and never compares it with `player.roomId`. -/
def handleMakeMove (st : ServerState) (socketId roomId : String)
    (position : JsKey) (now : Nat) : MoveOutcome × ServerState :=
  match mapGet st.games roomId, mapGet st.players socketId with
  | some game, some player =>
      if game.currentTurn ≠ player.symbol then (.errNotYourTurn, st)
      else
        let r := game.makeMove position player.symbol
        if r.1 then
          let st1 : ServerState := { st with games := mapSet st.games roomId r.2 }
          if r.2.winner.isSome ∨ r.2.isDraw then
            let gameDuration : ℚ := ((now : ℚ) - (r.2.startTime : ℚ)) / 1000
            let m := st1.metrics
            let m1 : Metrics :=
              { m with
                activeGames := m.activeGames - 1,
                averageGameDuration :=
                  updateAvg m.averageGameDuration m.totalGames gameDuration }
            (.ok true,
             { st1 with
               metrics := m1,
               pending := st1.pending ++ [⟨roomId, socketId, r.2, player.symbol⟩] })
          else (.ok false, st1)
        else (.errInvalidMove, st)
  | _, _ => (.errGameNotFound, st)

/-- The `socket.on('findGame')` handler (lines 104-147).  `newRoomId` stands
for the generated `game_<timestamp>_<random>` id and `now` for `Date.now()`.
The caller of a successful match becomes `X` (first turn), the waiting head
becomes `O`.  Room joins and the `gameStart` / `waiting` emissions are
transport effects, out of scope. -/
def handleFindGame (st : ServerState) (socketId : String) (newRoomId : String)
    (now : Nat) : ServerState :=
  match st.waitingPlayers with
  | opponentId :: rest =>
      let game := Game.new newRoomId socketId opponentId now
      { st with
        waitingPlayers := rest
        games := mapSet st.games newRoomId game
        players :=
          mapSet (mapSet st.players socketId ⟨newRoomId, .X, "Player1"⟩)
            opponentId ⟨newRoomId, .O, "Player2"⟩
        metrics :=
          { st.metrics with
            totalGames := st.metrics.totalGames + 1,
            activeGames := st.metrics.activeGames + 1 } }
  | [] => { st with waitingPlayers := st.waitingPlayers ++ [socketId] }

/-- The `socket.on('disconnect')` handler (lines 202-228).  Returns the new
state and, when the connection was in a still-registered game, the opponent id
that received the `opponentDisconnected` notice.  A `players` record always
has a nonempty `roomId` string, so the source's `player && player.roomId`
test is modelled as presence of the record. -/
def handleDisconnect (st : ServerState) (socketId : String) :
    ServerState × Option String :=
  let st0 : ServerState := { st with waitingPlayers := st.waitingPlayers.erase socketId }
  match mapGet st0.players socketId with
  | some player =>
      match mapGet st0.games player.roomId with
      | some game =>
          let opponentId := if player.symbol = Player.X then game.playerO else game.playerX
          let st1 : ServerState :=
            { st0 with
              games := mapDel st0.games player.roomId,
              metrics := { st0.metrics with activeGames := st0.metrics.activeGames - 1 },
              players := mapDel st0.players opponentId }
          ({ st1 with players := mapDel st1.players socketId }, some opponentId)
      | none => ({ st0 with players := mapDel st0.players socketId }, none)
  | none => ({ st0 with players := mapDel st0.players socketId }, none)

/-- The body of the deferred cleanup timer (lines 179-192): emits `gameEnd`
(transport, out of scope), then deletes the game and both player records.
It does not touch the metrics. -/
def fireCleanup (st : ServerState) (t : CleanupTask) : ServerState :=
  let opponentId := if t.moverSymbol = Player.X then t.game.playerO else t.game.playerX
  { st with
    games := mapDel st.games t.roomId,
    players := mapDel (mapDel st.players t.moverId) opponentId }

/-- Folding the source's average update over successive completions, `n` being
`metrics.totalGames` before the fold: the schedule in which the `i`-th session
completes while `totalGames = i`, i.e. each session is created and completed
before the next is created. -/
def seqAvg (avg : ℚ) (n : Nat) : List ℚ → ℚ
  | [] => avg
  | d :: ds => seqAvg (updateAvg avg (n + 1) d) (n + 1) ds

/-- A server state with one fresh session `rA` between connections `c1` (X)
and `c2` (O). -/
def demoState : ServerState :=
  { games := [("rA", Game.new "rA" "c1" "c2" 0)],
    players := [("c1", ⟨"rA", .X, "Player1"⟩), ("c2", ⟨"rA", .O, "Player2"⟩)],
    waitingPlayers := [],
    metrics := { totalGames := 1, activeGames := 1, averageGameDuration := 0 },
    pending := [] }

/-- A server state with two fresh sessions: `rA` between `c1` (X) and `c2`
(O), and `rB` between `c3` (X) and `c4` (O). -/
def twoGamesState : ServerState :=
  { games := [("rA", Game.new "rA" "c1" "c2" 0), ("rB", Game.new "rB" "c3" "c4" 0)],
    players := [("c1", ⟨"rA", .X, "Player1"⟩), ("c2", ⟨"rA", .O, "Player2"⟩),
                ("c3", ⟨"rB", .X, "Player1"⟩), ("c4", ⟨"rB", .O, "Player2"⟩)],
    waitingPlayers := [],
    metrics := { totalGames := 2, activeGames := 2, averageGameDuration := 0 },
    pending := [] }

/-- Connection `a` requests a match, `b` matches it (session `rA`, `b` is X),
then the game is played to X's win on the top row, the final move arriving at
`now = 1000` ms.  The terminal branch has run; its deferred cleanup has not
yet fired. -/
def terminalMoveRun : ServerState :=
  let s := handleFindGame ServerState.empty "a" "x" 0
  let s := handleFindGame s "b" "rA" 0
  let s := (handleMakeMove s "b" "rA" (.idx 0) 0).2
  let s := (handleMakeMove s "a" "rA" (.idx 3) 0).2
  let s := (handleMakeMove s "b" "rA" (.idx 1) 0).2
  let s := (handleMakeMove s "a" "rA" (.idx 4) 0).2
  (handleMakeMove s "b" "rA" (.idx 2) 1000).2

/-- Participant `a` disconnects right after the terminal move of
`terminalMoveRun`, before the 100 ms cleanup fires. -/
def disconnectAfterTerminal : ServerState × Option String :=
  handleDisconnect terminalMoveRun "a"

/-- Two sessions are created (both at `now = 0`), then both are played to
completion: `rA` completes at 2000 ms (duration 2 s) and `rB` at 4000 ms
(duration 4 s). -/
def twoConcurrentGamesRun : ServerState :=
  let s := handleFindGame ServerState.empty "a" "x" 0
  let s := handleFindGame s "b" "rA" 0
  let s := handleFindGame s "c" "x" 0
  let s := handleFindGame s "d" "rB" 0
  let s := (handleMakeMove s "b" "rA" (.idx 0) 0).2
  let s := (handleMakeMove s "a" "rA" (.idx 3) 0).2
  let s := (handleMakeMove s "b" "rA" (.idx 1) 0).2
  let s := (handleMakeMove s "a" "rA" (.idx 4) 0).2
  let s := (handleMakeMove s "b" "rA" (.idx 2) 2000).2
  let s := (handleMakeMove s "d" "rB" (.idx 0) 0).2
  let s := (handleMakeMove s "c" "rB" (.idx 3) 0).2
  let s := (handleMakeMove s "d" "rB" (.idx 1) 0).2
  let s := (handleMakeMove s "c" "rB" (.idx 4) 0).2
  (handleMakeMove s "d" "rB" (.idx 2) 4000).2

/-! ### Helper lemmas about `checkWinner` and `makeMove` -/

theorem checkWinner_currentTurn (g : Game) :
    (g.checkWinner).currentTurn = g.currentTurn := by
  unfold Game.checkWinner
  cases findWinner g.board winPatterns
  · by_cases h9 : g.moveCount = 9 <;> simp [h9]
  · rfl

theorem checkWinner_board (g : Game) : (g.checkWinner).board = g.board := by
  unfold Game.checkWinner
  cases findWinner g.board winPatterns
  · by_cases h9 : g.moveCount = 9 <;> simp [h9]
  · rfl

theorem checkWinner_moveCount (g : Game) :
    (g.checkWinner).moveCount = g.moveCount := by
  unfold Game.checkWinner
  cases findWinner g.board winPatterns
  · by_cases h9 : g.moveCount = 9 <;> simp [h9]
  · rfl

theorem checkWinner_winner_of_some (g : Game) (p : Player)
    (h : findWinner g.board winPatterns = some p) :
    (g.checkWinner).winner = some p := by
  unfold Game.checkWinner
  rw [h]

theorem checkWinner_winner_of_none (g : Game)
    (h : findWinner g.board winPatterns = none) :
    (g.checkWinner).winner = g.winner := by
  unfold Game.checkWinner
  rw [h]
  by_cases h9 : g.moveCount = 9 <;> simp [h9]

theorem checkWinner_isDraw_of_some (g : Game) (p : Player)
    (h : findWinner g.board winPatterns = some p) :
    (g.checkWinner).isDraw = g.isDraw := by
  unfold Game.checkWinner
  rw [h]

theorem checkWinner_isDraw_of_none (g : Game)
    (h : findWinner g.board winPatterns = none) :
    (g.checkWinner).isDraw = (if g.moveCount = 9 then true else g.isDraw) := by
  unfold Game.checkWinner
  rw [h]
  by_cases h9 : g.moveCount = 9 <;> simp [h9]

/-- The rejection guard of `makeMove`: a non-`null` read or a terminal flag
returns `false` and leaves the game untouched. -/
theorem makeMove_rejected (g : Game) (pos : JsKey) (sym : Player)
    (h : jsGet g.board pos ≠ JsVal.null ∨ g.winner.isSome = true ∨ g.isDraw = true) :
    g.makeMove pos sym = (false, g) := by
  unfold Game.makeMove
  rw [if_pos h]

/-- The success path of `makeMove`, written out. -/
theorem makeMove_accepted (g : Game) (pos : JsKey) (sym : Player)
    (h1 : jsGet g.board pos = JsVal.null) (h2 : g.winner = none)
    (h3 : g.isDraw = false) :
    g.makeMove pos sym =
      (true,
       { Game.checkWinner
           { g with board := jsSet g.board pos (some sym),
                    moveCount := g.moveCount + 1 } with
         currentTurn :=
           (Game.checkWinner
               { g with board := jsSet g.board pos (some sym),
                        moveCount := g.moveCount + 1 }).currentTurn.other }) := by
  unfold Game.makeMove
  rw [if_neg]
  simp [h1, h2, h3]

/-- `makeMove` accepts only at states with both terminal flags clear. -/
theorem makeMove_accepted_flags (g : Game) (pos : JsKey) (sym : Player)
    (h : (g.makeMove pos sym).1 = true) :
    jsGet g.board pos = JsVal.null ∧ g.winner = none ∧ g.isDraw = false := by
  by_cases hc : jsGet g.board pos ≠ JsVal.null ∨ g.winner.isSome = true ∨ g.isDraw = true
  · rw [makeMove_rejected g pos sym hc] at h
    cases h
  · push_neg at hc
    refine ⟨hc.1, ?_, ?_⟩
    · cases hw : g.winner
      · rfl
      · exact absurd (by rw [hw]; rfl) hc.2.1
    · cases hd : g.isDraw
      · rfl
      · exact absurd hd hc.2.2

/-- Every accepted move flips `currentTurn` (line 42 runs unconditionally,
after `checkWinner`). -/
theorem makeMove_flips (g : Game) (pos : JsKey) (sym : Player)
    (h : (g.makeMove pos sym).1 = true) :
    (g.makeMove pos sym).2.currentTurn = g.currentTurn.other := by
  obtain ⟨h1, h2, h3⟩ := makeMove_accepted_flags g pos sym h
  rw [makeMove_accepted g pos sym h1 h2 h3]
  simp [checkWinner_currentTurn]

/-- A `null` read locates a genuine in-range empty cell. -/
theorem jsGet_null_elim (board : List Cell) (pos : JsKey)
    (h : jsGet board pos = JsVal.null) :
    ∃ n : Nat, pos = JsKey.idx (n : Int) ∧ board[n]? = some none := by
  cases pos with
  | nonIdx => exact absurd h (by simp [jsGet])
  | idx n =>
      simp only [jsGet] at h
      by_cases hn : n < 0
      · rw [if_pos hn] at h
        cases h
      · rw [if_neg hn] at h
        refine ⟨n.toNat, ?_, ?_⟩
        · rw [Int.toNat_of_nonneg (by omega)]
        · cases hb : board[n.toNat]? with
          | none => rw [hb] at h; cases h
          | some c =>
              cases c with
              | none => rfl
              | some p => rw [hb] at h; cases h

theorem jsSet_idx (board : List Cell) (n : Nat) (v : Cell) :
    jsSet board (JsKey.idx (n : Int)) v = board.set n v := by
  simp only [jsSet]
  rw [if_neg (by omega)]
  simp

/-- Writing a marker into an empty cell raises the non-empty-cell count by
exactly one. -/
theorem countSome_set (board : List Cell) (n : Nat) (v : Player)
    (h : board[n]? = some none) :
    countSome (board.set n (some v)) = countSome board + 1 := by
  induction board generalizing n with
  | nil => simp at h
  | cons c tl ih =>
      cases n with
      | zero =>
          simp only [List.getElem?_cons_zero, Option.some.injEq] at h
          subst h
          simp [countSome, List.countP_cons]
      | succ n =>
          simp only [List.getElem?_cons_succ] at h
          simp only [List.set_cons_succ, countSome, List.countP_cons]
          have := ih n h
          simp only [countSome] at this
          omega

/-- A submission not meeting the rejection guard is accepted. -/
theorem makeMove_guard_cases (g : Game) (pos : JsKey) (sym : Player) :
    (jsGet g.board pos = JsVal.null ∧ g.winner = none ∧ g.isDraw = false) ∨
      g.makeMove pos sym = (false, g) := by
  by_cases hc : jsGet g.board pos ≠ JsVal.null ∨ g.winner.isSome = true ∨ g.isDraw = true
  · exact Or.inr (makeMove_rejected g pos sym hc)
  · push_neg at hc
    refine Or.inl ⟨hc.1, ?_, ?_⟩
    · cases hw : g.winner
      · rfl
      · exact absurd (by rw [hw]; rfl) hc.2.1
    · cases hd : g.isDraw
      · rfl
      · exact absurd hd hc.2.2

/-- One `makeMove` submission preserves "move counter = non-empty cells". -/
theorem makeMove_preserves_count (g : Game) (pos : JsKey) (sym : Player)
    (hInv : g.moveCount = countSome g.board) :
    (g.makeMove pos sym).2.moveCount = countSome (g.makeMove pos sym).2.board := by
  rcases makeMove_guard_cases g pos sym with ⟨h1, h2, h3⟩ | hrej
  · rw [makeMove_accepted g pos sym h1 h2 h3]
    obtain ⟨n, rfl, hcell⟩ := jsGet_null_elim g.board pos h1
    simp only [checkWinner_moveCount, checkWinner_board]
    rw [jsSet_idx, countSome_set g.board n sym hcell]
    omega
  · rw [hrej]
    exact hInv

/-- One `makeMove` submission preserves "at most one terminal flag". -/
theorem makeMove_preserves_notBoth (g : Game) (pos : JsKey) (sym : Player)
    (hInv : ¬(g.winner.isSome = true ∧ g.isDraw = true)) :
    ¬((g.makeMove pos sym).2.winner.isSome = true ∧
      (g.makeMove pos sym).2.isDraw = true) := by
  rcases makeMove_guard_cases g pos sym with ⟨h1, h2, h3⟩ | hrej
  · rw [makeMove_accepted g pos sym h1 h2 h3]
    set g1 : Game :=
      { g with board := jsSet g.board pos (some sym),
               moveCount := g.moveCount + 1 } with hg1
    cases hfw : findWinner g1.board winPatterns with
    | some p =>
        rintro ⟨-, hd⟩
        rw [checkWinner_isDraw_of_some g1 p hfw] at hd
        have hD : g1.isDraw = false := h3
        rw [hD] at hd
        cases hd
    | none =>
        rintro ⟨hw, -⟩
        rw [checkWinner_winner_of_none g1 hfw] at hw
        have hW : g1.winner = none := h2
        rw [hW] at hw
        cases hw
  · rw [hrej]
    exact hInv

/-! ### Declarative characterisation of the terminal evaluation -/

/-- Line `t` is won by marker `m`: all three of its cells hold `m`. -/
def wonBy (board : List Cell) (t : Nat × Nat × Nat) (m : Player) : Prop :=
  board.getD t.1 none = some m ∧ board.getD t.2.1 none = some m ∧
    board.getD t.2.2 none = some m

instance (board : List Cell) (t : Nat × Nat × Nat) (m : Player) :
    Decidable (wonBy board t m) := by
  unfold wonBy
  infer_instance

theorem lineWinner_eq_some_iff (board : List Cell) (t : Nat × Nat × Nat)
    (m : Player) : lineWinner board t = some m ↔ wonBy board t m := by
  unfold lineWinner wonBy
  cases h : board.getD t.1 none with
  | none => simp [h]
  | some p =>
      dsimp only
      by_cases hbc : board.getD t.2.1 none = some p ∧ board.getD t.2.2 none = some p
      · rw [if_pos hbc]
        constructor
        · intro hpm
          injection hpm with hpm
          subst hpm
          exact ⟨rfl, hbc.1, hbc.2⟩
        · rintro ⟨h1, -, -⟩
          exact h1
      · rw [if_neg hbc]
        constructor
        · rintro ⟨⟩
        · rintro ⟨h1, h2, h3⟩
          injection h1 with h1
          subst h1
          exact absurd ⟨h2, h3⟩ hbc

theorem lineWinner_eq_none_iff (board : List Cell) (t : Nat × Nat × Nat) :
    lineWinner board t = none ↔ ∀ m, ¬ wonBy board t m := by
  constructor
  · intro hnone m hw
    rw [← lineWinner_eq_some_iff] at hw
    rw [hnone] at hw
    cases hw
  · intro hall
    cases h : lineWinner board t with
    | none => rfl
    | some p => exact absurd ((lineWinner_eq_some_iff board t p).1 h) (hall p)

theorem findWinner_eq_none_iff (board : List Cell)
    (pats : List (Nat × Nat × Nat)) :
    findWinner board pats = none ↔ ∀ t ∈ pats, ∀ m, ¬ wonBy board t m := by
  induction pats with
  | nil => simp [findWinner]
  | cons t rest ih =>
      unfold findWinner
      cases h : lineWinner board t with
      | some p =>
          dsimp only
          constructor
          · rintro ⟨⟩
          · intro hall
            exact absurd ((lineWinner_eq_some_iff board t p).1 h)
              (hall t (List.mem_cons_self t rest) p)
      | none =>
          dsimp only
          rw [ih]
          constructor
          · intro hrest u hu m
            rcases List.mem_cons.1 hu with rfl | hmem
            · exact (lineWinner_eq_none_iff board u).1 h m
            · exact hrest u hmem m
          · intro hall u hu m
            exact hall u (List.mem_cons_of_mem t hu) m

/-- `findWinner` returns `some m` exactly when some line is won by `m` and it
is the first line, in enumeration order, won by anyone. -/
theorem findWinner_eq_some_iff (board : List Cell)
    (pats : List (Nat × Nat × Nat)) (m : Player) :
    findWinner board pats = some m ↔
      ∃ i, i < pats.length ∧ wonBy board (pats.getD i (0, 0, 0)) m ∧
        ∀ j, j < i → ∀ mj, ¬ wonBy board (pats.getD j (0, 0, 0)) mj := by
  induction pats with
  | nil => simp [findWinner]
  | cons t rest ih =>
      unfold findWinner
      cases h : lineWinner board t with
      | some p =>
          dsimp only
          constructor
          · intro he
            injection he with he
            subst he
            refine ⟨0, by simp, ?_, ?_⟩
            · simpa using (lineWinner_eq_some_iff board t p).1 h
            · exact fun j hj => absurd hj (Nat.not_lt_zero j)
          · rintro ⟨i, hi, hwin, hprev⟩
            cases i with
            | zero =>
                simp only [List.getD_cons_zero] at hwin
                rw [← lineWinner_eq_some_iff] at hwin
                rw [h] at hwin
                exact hwin
            | succ i =>
                exact absurd ((lineWinner_eq_some_iff board t p).1 h)
                  (by simpa using hprev 0 (Nat.succ_pos i) p)
      | none =>
          dsimp only
          rw [ih]
          constructor
          · rintro ⟨i, hi, hwin, hprev⟩
            refine ⟨i + 1, by simp only [List.length_cons]; omega,
              by simpa using hwin, ?_⟩
            intro j hj mj
            cases j with
            | zero =>
                simpa using (lineWinner_eq_none_iff board t).1 h mj
            | succ j =>
                simpa using hprev j (by omega) mj
          · rintro ⟨i, hi, hwin, hprev⟩
            cases i with
            | zero =>
                simp only [List.getD_cons_zero] at hwin
                rw [← lineWinner_eq_some_iff] at hwin
                rw [h] at hwin
                cases hwin
            | succ i =>
                refine ⟨i, by simp only [List.length_cons] at hi; omega,
                  by simpa using hwin, ?_⟩
                intro j hj mj
                have := hprev (j + 1) (by omega) mj
                simpa using this

/-- A terminal state accepts no further submission and is left untouched. -/
theorem makeMove_frozen (g : Game) (pos : JsKey) (sym : Player)
    (h : g.winner.isSome = true ∨ g.isDraw = true) :
    g.makeMove pos sym = (false, g) :=
  makeMove_rejected g pos sym (Or.inr h)

theorem applyMoves_preserves_count (ms : List (JsKey × Player)) (g : Game)
    (hInv : g.moveCount = countSome g.board) :
    (g.applyMoves ms).moveCount = countSome (g.applyMoves ms).board := by
  induction ms generalizing g with
  | nil => exact hInv
  | cons m ms ih =>
      exact ih _ (makeMove_preserves_count g m.1 m.2 hInv)

theorem applyMoves_preserves_notBoth (ms : List (JsKey × Player)) (g : Game)
    (hInv : ¬(g.winner.isSome = true ∧ g.isDraw = true)) :
    ¬((g.applyMoves ms).winner.isSome = true ∧ (g.applyMoves ms).isDraw = true) := by
  induction ms generalizing g with
  | nil => exact hInv
  | cons m ms ih =>
      exact ih _ (makeMove_preserves_notBoth g m.1 m.2 hInv)

/-! ### Helper lemmas about the `makeMove` handler -/

/-- The handler's own role pre-check: a sender whose membership symbol is not
the game's active turn receives `'Not your turn'` and the state is returned
untouched. -/
theorem handleMakeMove_not_your_turn (st : ServerState) (socketId roomId : String)
    (pos : JsKey) (now : Nat) (game : Game) (player : PlayerInfo)
    (hg : mapGet st.games roomId = some game)
    (hp : mapGet st.players socketId = some player)
    (hrole : game.currentTurn ≠ player.symbol) :
    handleMakeMove st socketId roomId pos now = (.errNotYourTurn, st) := by
  unfold handleMakeMove
  rw [hg, hp]
  dsimp only
  rw [if_pos hrole]

/-- When the role pre-check passes but the state machine rejects, the handler
replies `'Invalid move'` and the state is returned untouched. -/
theorem handleMakeMove_invalid (st : ServerState) (socketId roomId : String)
    (pos : JsKey) (now : Nat) (game : Game) (player : PlayerInfo)
    (hg : mapGet st.games roomId = some game)
    (hp : mapGet st.players socketId = some player)
    (hrole : game.currentTurn = player.symbol)
    (hrej : game.makeMove pos player.symbol = (false, game)) :
    handleMakeMove st socketId roomId pos now = (.errInvalidMove, st) := by
  unfold handleMakeMove
  rw [hg, hp]
  dsimp only
  rw [if_neg (by simp [hrole]), hrej]
  simp

/-! ### The sequential-schedule average -/

theorem seqAvg_eq (ds : List ℚ) (avg : ℚ) (n : Nat) (h : 0 < n + ds.length) :
    seqAvg avg n ds = (avg * (n : ℚ) + ds.sum) / ((n : ℚ) + (ds.length : ℚ)) := by
  induction ds generalizing avg n with
  | nil =>
      simp only [List.length_nil, Nat.add_zero] at h
      simp only [seqAvg, List.sum_nil, List.length_nil, add_zero, Nat.cast_zero]
      have hn : (n : ℚ) ≠ 0 := by
        have hn0 : n ≠ 0 := by omega
        exact_mod_cast hn0
      rw [mul_div_assoc, div_self hn, mul_one]
  | cons d ds ih =>
      simp only [seqAvg, List.sum_cons, List.length_cons]
      rw [ih _ (n + 1) (by omega)]
      have h1 : ((n + 1 : Nat) : ℚ) = (n : ℚ) + 1 := by push_cast; ring
      rw [h1]
      have hn1 : (n : ℚ) + 1 ≠ 0 := by positivity
      have hupd : updateAvg avg (n + 1) d * ((n : ℚ) + 1) = avg * (n : ℚ) + d := by
        unfold updateAvg
        rw [h1, div_mul_cancel₀ _ hn1]
        ring
      rw [hupd]
      have h2 : ((ds.length + 1 : Nat) : ℚ) = (ds.length : ℚ) + 1 := by
        push_cast
        ring
      rw [h2]
      rw [show avg * (n : ℚ) + d + ds.sum = avg * (n : ℚ) + (d + ds.sum) by ring]
      rw [show (n : ℚ) + 1 + (ds.length : ℚ) = (n : ℚ) + ((ds.length : ℚ) + 1) by ring]

/-! ### Claim C1: turn flip vs terminal condition -/

/-- Pre-state for the C1 counterexample: X to move, X X _ on the top row,
O O _ on the second row. -/
def c1Game : Game :=
  { roomId := "r1", board := [some .X, some .X, none, some .O, some .O, none,
      none, none, none],
    playerX := "a", playerO := "b", currentTurn := .X, winner := none,
    isDraw := false, moveCount := 4, startTime := 0 }

/-- C1 (counterexample): a move by X that sets the winner flag nevertheless
flips the recorded active role to O, so the post-move active role is NOT the
role that just moved, contrary to the claim. -/
theorem c1_counterexample :
    (c1Game.makeMove (JsKey.idx 2) Player.X).1 = true ∧
    (c1Game.makeMove (JsKey.idx 2) Player.X).2.winner = some Player.X ∧
    c1Game.currentTurn = Player.X ∧
    (c1Game.makeMove (JsKey.idx 2) Player.X).2.currentTurn = Player.O := by
  decide

/-- C1 (amended): `makeMove` flips the active role after EVERY accepted move,
terminal or not — line 42 runs unconditionally after `checkWinner`.  (Since a
terminal session accepts no further moves, the flipped value is never used for
turn validation.) -/
theorem c1_flip_always (g : Game) (pos : JsKey) (sym : Player)
    (h : (g.makeMove pos sym).1 = true) :
    (g.makeMove pos sym).2.currentTurn = g.currentTurn.other :=
  makeMove_flips g pos sym h

theorem c1_flip_always_witness :
    ((Game.new "w1" "a" "b" 0).makeMove (JsKey.idx 4) Player.X).2.currentTurn
      = (Game.new "w1" "a" "b" 0).currentTurn.other :=
  c1_flip_always (Game.new "w1" "a" "b" 0) (JsKey.idx 4) Player.X (by decide)

/-! ### Claim C2: no role re-validation inside the state machine -/

/-- C2 (counterexample): on a fresh session whose active role is X, calling
the state machine's move submission directly with role O succeeds and writes
O into the board — `makeMove` performs no role check at all, contrary to the
claimed defense in depth. -/
theorem c2_counterexample :
    (Game.new "r2" "a" "b" 0).currentTurn = Player.X ∧
    ((Game.new "r2" "a" "b" 0).makeMove (JsKey.idx 0) Player.O).1 = true ∧
    ((Game.new "r2" "a" "b" 0).makeMove (JsKey.idx 0) Player.O).2.board.getD 0 none
      = some Player.O := by
  decide

/-- C2 (amended): role validation exists only in the Session Manager's
pre-check (`game.currentTurn !== player.symbol`, line 159), which rejects a
foreign-role submission with `'Not your turn'` and leaves the state untouched;
the state machine itself never re-validates the role. -/
theorem c2_role_checked_only_by_manager (st : ServerState)
    (socketId roomId : String) (pos : JsKey) (now : Nat) (game : Game)
    (player : PlayerInfo) (hg : mapGet st.games roomId = some game)
    (hp : mapGet st.players socketId = some player)
    (hrole : game.currentTurn ≠ player.symbol) :
    handleMakeMove st socketId roomId pos now = (.errNotYourTurn, st) :=
  handleMakeMove_not_your_turn st socketId roomId pos now game player hg hp hrole

theorem c2_role_checked_only_by_manager_witness :
    handleMakeMove demoState "c2" "rA" (JsKey.idx 0) 0
      = (MoveOutcome.errNotYourTurn, demoState) :=
  c2_role_checked_only_by_manager demoState "c2" "rA" (JsKey.idx 0) 0
    (Game.new "rA" "c1" "c2" 0) ⟨"rA", .O, "Player2"⟩ (by decide) (by decide)
    (by decide)

/-! ### Claim C3: cross-session mutation through the move handler -/

/-- C3 (code-bug evidence): connection `c1`, whose membership is in session
`rA`, sends a move request naming session `rB`; the handler accepts it and
writes `c1`'s symbol into `rB`'s board, mutating a session `c1` is not a
member of.  The handler never compares the client-supplied `roomId` with
`player.roomId`. -/
theorem c3_cross_session_mutation :
    (mapGet twoGamesState.players "c1").map (fun q => q.roomId) = some "rA" ∧
    (handleMakeMove twoGamesState "c1" "rB" (JsKey.idx 0) 0).1
      = MoveOutcome.ok false ∧
    (mapGet (handleMakeMove twoGamesState "c1" "rB" (JsKey.idx 0) 0).2.games
        "rB").map (fun g => g.board.getD 0 none) = some (some Player.X) ∧
    (mapGet twoGamesState.games "rB").map (fun g => g.board.getD 0 none)
      = some none := by
  decide

/-! ### Claim C4: double decrement on disconnect after a terminal move -/

/-- C4 (code-bug evidence): one single session is created
(`totalGames = 1`); its terminal move decrements `activeGames` from 1 to 0 and
schedules the cleanup 100 ms later; a participant's disconnect arriving before
the cleanup fires still finds the game registered and decrements again, to
-1 — two decrements for one session. -/
theorem c4_double_decrement :
    terminalMoveRun.metrics.totalGames = 1 ∧
    terminalMoveRun.metrics.activeGames = 0 ∧
    (mapGet terminalMoveRun.games "rA").map (fun g => g.winner)
      = some (some Player.X) ∧
    terminalMoveRun.pending.length = 1 ∧
    disconnectAfterTerminal.1.metrics.activeGames = -1 ∧
    disconnectAfterTerminal.2 = some "b" := by
  decide

/-! ### Claim C5: the rolling average across completions -/

/-- C5 (counterexample): two sessions are created and then both completed,
with durations 2 s and 4 s.  The reported average is 5/2, not the arithmetic
mean 3, because the update divides by `totalGames` (= 2, sessions created)
already at the first completion. -/
theorem c5_counterexample :
    twoConcurrentGamesRun.metrics.totalGames = 2 ∧
    (mapGet twoConcurrentGamesRun.games "rA").map (fun g => g.winner)
      = some (some Player.X) ∧
    (mapGet twoConcurrentGamesRun.games "rB").map (fun g => g.winner)
      = some (some Player.X) ∧
    twoConcurrentGamesRun.metrics.averageGameDuration = 5 / 2 ∧
    ((2 : ℚ) + 4) / 2 ≠ 5 / 2 := by
  refine ⟨by decide, by decide, by decide, ?_, by norm_num⟩
  have h : twoConcurrentGamesRun.metrics.averageGameDuration
      = updateAvg (updateAvg 0 2 ((((2000 : Nat) : ℚ) - ((0 : Nat) : ℚ)) / 1000)) 2
          ((((4000 : Nat) : ℚ) - ((0 : Nat) : ℚ)) / 1000) := by rfl
  rw [h]
  norm_num [updateAvg]

/-- C5 (amended): the source's update `avg = (avg * (totalGames - 1) + d) /
totalGames` yields the arithmetic mean of the completed durations exactly when
the `i`-th completion occurs while `totalGames = i`, i.e. each session is
created and completed before the next is created; with concurrent (or
abandoned) sessions the divisor counts sessions created, not completed, and
the reported value deviates from the mean. -/
theorem c5_sequential_mean (ds : List ℚ) (h : ds ≠ []) :
    seqAvg 0 0 ds = ds.sum / (ds.length : ℚ) := by
  have hlen : 0 < 0 + ds.length := by
    cases ds with
    | nil => exact absurd rfl h
    | cons d tl => simp
  rw [seqAvg_eq ds 0 0 hlen]
  simp

theorem c5_sequential_mean_witness :
    seqAvg 0 0 [(2 : ℚ), 4] = ([(2 : ℚ), 4].sum) / (([(2 : ℚ), 4].length : ℚ)) :=
  c5_sequential_mean [2, 4] (by simp)

/-! ### Claim C6: every illegal submission fails with its kind, no mutation -/

/-- C6: through the move handler, a foreign-role submission fails with
`'Not your turn'`; with the role matching, a submission to an occupied cell,
to an out-of-range (or non-index) position, or to a session with a terminal
flag set fails with `'Invalid move'`; in every case the returned state is the
untouched input state (board, move counter, active role and terminal flags
included). -/
theorem c6_illegal_submissions (st : ServerState) (socketId roomId : String)
    (pos : JsKey) (now : Nat) (game : Game) (player : PlayerInfo)
    (hg : mapGet st.games roomId = some game)
    (hp : mapGet st.players socketId = some player) :
    (game.currentTurn ≠ player.symbol →
       handleMakeMove st socketId roomId pos now = (.errNotYourTurn, st)) ∧
    (game.currentTurn = player.symbol →
      (∃ m, jsGet game.board pos = JsVal.sym m) →
       handleMakeMove st socketId roomId pos now = (.errInvalidMove, st)) ∧
    (game.currentTurn = player.symbol → jsGet game.board pos = JsVal.undefined →
       handleMakeMove st socketId roomId pos now = (.errInvalidMove, st)) ∧
    (game.currentTurn = player.symbol →
      (game.winner.isSome = true ∨ game.isDraw = true) →
       handleMakeMove st socketId roomId pos now = (.errInvalidMove, st)) := by
  refine ⟨fun hrole =>
    handleMakeMove_not_your_turn st socketId roomId pos now game player hg hp hrole,
    ?_, ?_, ?_⟩
  · rintro hrole ⟨m, hm⟩
    exact handleMakeMove_invalid st socketId roomId pos now game player hg hp hrole
      (makeMove_rejected game pos player.symbol (Or.inl (by simp [hm])))
  · intro hrole hm
    exact handleMakeMove_invalid st socketId roomId pos now game player hg hp hrole
      (makeMove_rejected game pos player.symbol (Or.inl (by simp [hm])))
  · intro hrole hterm
    exact handleMakeMove_invalid st socketId roomId pos now game player hg hp hrole
      (makeMove_rejected game pos player.symbol (Or.inr hterm))

theorem c6_illegal_submissions_witness :
    handleMakeMove demoState "c1" "rA" (JsKey.idx 9) 0
      = (MoveOutcome.errInvalidMove, demoState) :=
  (c6_illegal_submissions demoState "c1" "rA" (JsKey.idx 9) 0
    (Game.new "rA" "c1" "c2" 0) ⟨"rA", .X, "Player1"⟩ (by decide)
    (by decide)).2.2.1 (by decide) (by decide)

/-! ### Claim C7: strict alternation and the move-counter invariant -/

/-- C7: starting from a fresh session, after any sequence of submissions the
move counter equals the number of non-empty cells; and every accepted move
flips the active role to the other role (strict alternation). -/
theorem c7_alternation_and_count :
    (∀ (roomId p1 p2 : String) (t : Nat) (ms : List (JsKey × Player)),
        ((Game.new roomId p1 p2 t).applyMoves ms).moveCount
          = countSome ((Game.new roomId p1 p2 t).applyMoves ms).board) ∧
    (∀ (g : Game) (pos : JsKey) (sym : Player),
        (g.makeMove pos sym).1 = true →
          (g.makeMove pos sym).2.currentTurn = g.currentTurn.other) := by
  constructor
  · intro roomId p1 p2 t ms
    exact applyMoves_preserves_count ms (Game.new roomId p1 p2 t) rfl
  · exact makeMove_flips

theorem c7_alternation_and_count_witness :
    ((Game.new "w7" "a" "b" 0).applyMoves [(JsKey.idx 0, Player.X)]).moveCount
      = countSome (((Game.new "w7" "a" "b" 0).applyMoves
          [(JsKey.idx 0, Player.X)]).board) ∧
    ((Game.new "w7" "a" "b" 0).makeMove (JsKey.idx 1) Player.X).2.currentTurn
      = (Game.new "w7" "a" "b" 0).currentTurn.other :=
  ⟨c7_alternation_and_count.1 "w7" "a" "b" 0 [(JsKey.idx 0, Player.X)],
   c7_alternation_and_count.2 (Game.new "w7" "a" "b" 0) (JsKey.idx 1) Player.X
     (by decide)⟩

/-! ### Claim C8: the terminal evaluation -/

/-- C8: from a state with both terminal flags clear (the state on which
`checkWinner` runs after an accepted move), `checkWinner` sets `winner` to `m`
exactly when some enumerated line is won by `m` and every earlier line in the
fixed enumeration is won by nobody (first-found); and it sets `isDraw` exactly
when no line is won and the move counter is 9. -/
theorem c8_checkWinner_spec (g : Game) (hw : g.winner = none)
    (hd : g.isDraw = false) :
    (∀ m : Player,
        (g.checkWinner).winner = some m ↔
          ∃ i, i < winPatterns.length ∧
            wonBy g.board (winPatterns.getD i (0, 0, 0)) m ∧
            ∀ j, j < i → ∀ mj, ¬ wonBy g.board (winPatterns.getD j (0, 0, 0)) mj) ∧
    ((g.checkWinner).isDraw = true ↔
        (∀ t ∈ winPatterns, ∀ m, ¬ wonBy g.board t m) ∧ g.moveCount = 9) := by
  constructor
  · intro m
    have hchar := findWinner_eq_some_iff g.board winPatterns m
    unfold Game.checkWinner
    cases hfw : findWinner g.board winPatterns with
    | some p =>
        dsimp only
        constructor
        · intro he
          exact hchar.1 (hfw.trans he)
        · intro hex
          have hsome := hchar.2 hex
          rw [hfw] at hsome
          exact hsome
    | none =>
        have hwin_eq :
            (if g.moveCount = 9 then { g with isDraw := true } else g).winner
              = g.winner := by
          by_cases h9 : g.moveCount = 9 <;> simp [h9]
        dsimp only
        rw [hwin_eq, hw]
        constructor
        · rintro ⟨⟩
        · intro hex
          have hsome := hchar.2 hex
          rw [hfw] at hsome
          cases hsome
  · unfold Game.checkWinner
    cases hfw : findWinner g.board winPatterns with
    | some p =>
        dsimp only
        rw [show ({ g with winner := some p } : Game).isDraw = g.isDraw from rfl, hd]
        constructor
        · rintro ⟨⟩
        · rintro ⟨hnowin, -⟩
          have hnone := (findWinner_eq_none_iff g.board winPatterns).2 hnowin
          rw [hfw] at hnone
          cases hnone
    | none =>
        dsimp only
        by_cases h9 : g.moveCount = 9
        · rw [if_pos h9]
          constructor
          · intro _
            exact ⟨(findWinner_eq_none_iff g.board winPatterns).1 hfw, h9⟩
          · intro _
            rfl
        · rw [if_neg h9, hd]
          constructor
          · rintro ⟨⟩
          · rintro ⟨-, h9c⟩
            exact absurd h9c h9

/-- Terminal state used by the C8 and C9 witnesses: top row won by X. -/
def wonGame : Game :=
  { roomId := "t", board := [some .X, some .X, some .X, some .O, some .O, none,
      none, none, none],
    playerX := "a", playerO := "b", currentTurn := .O, winner := some .X,
    isDraw := false, moveCount := 5, startTime := 0 }

/-- The pre-`checkWinner` version of `wonGame` (flags still clear). -/
def preWonGame : Game := { wonGame with winner := none }

theorem c8_checkWinner_spec_witness :
    ((preWonGame.checkWinner).winner = some Player.X ↔
      ∃ i, i < winPatterns.length ∧
        wonBy preWonGame.board (winPatterns.getD i (0, 0, 0)) Player.X ∧
        ∀ j, j < i → ∀ mj,
          ¬ wonBy preWonGame.board (winPatterns.getD j (0, 0, 0)) mj) ∧
    ((preWonGame.checkWinner).isDraw = true ↔
      (∀ t ∈ winPatterns, ∀ m, ¬ wonBy preWonGame.board t m) ∧
        preWonGame.moveCount = 9) :=
  ⟨(c8_checkWinner_spec preWonGame rfl rfl).1 Player.X,
   (c8_checkWinner_spec preWonGame rfl rfl).2⟩

/-! ### Claim C9: mutual exclusion of the terminal flags -/

/-- C9: starting from a fresh session, after any sequence of submissions at
most one of the winner and draw flags is set; moreover any state with a
terminal flag set rejects every further submission unchanged, so a set flag
can never be joined by the other one later. -/
theorem c9_terminal_flags_exclusive :
    (∀ (roomId p1 p2 : String) (t : Nat) (ms : List (JsKey × Player)),
        ¬(((Game.new roomId p1 p2 t).applyMoves ms).winner.isSome = true ∧
          ((Game.new roomId p1 p2 t).applyMoves ms).isDraw = true)) ∧
    (∀ (g : Game) (pos : JsKey) (sym : Player),
        g.winner.isSome = true ∨ g.isDraw = true →
          g.makeMove pos sym = (false, g)) := by
  constructor
  · intro roomId p1 p2 t ms
    refine applyMoves_preserves_notBoth ms (Game.new roomId p1 p2 t) ?_
    rintro ⟨h1, -⟩
    cases h1
  · exact makeMove_frozen

theorem c9_terminal_flags_exclusive_witness :
    ¬(((Game.new "w9" "a" "b" 0).applyMoves
          [(JsKey.idx 0, Player.X)]).winner.isSome = true ∧
      ((Game.new "w9" "a" "b" 0).applyMoves
          [(JsKey.idx 0, Player.X)]).isDraw = true) ∧
    wonGame.makeMove (JsKey.idx 5) Player.O = (false, wonGame) :=
  ⟨c9_terminal_flags_exclusive.1 "w9" "a" "b" 0 [(JsKey.idx 0, Player.X)],
   c9_terminal_flags_exclusive.2 wonGame (JsKey.idx 5) Player.O (Or.inl rfl)⟩

/-! ### Claim C10: bounds safety of `makeMove` at the public interface -/

/-- C10: `makeMove` (a total function of any position value, including
negative, beyond 8, and non-index ones) never changes the board's length; an
accepted call writes exactly one marker, at an in-range index `n < 9` whose
cell was empty; and any position whose read is not `null` — every occupied
cell and every out-of-range or non-index position — is rejected with the game
returned untouched. -/
theorem c10_makeMove_bounds (g : Game) (pos : JsKey) (sym : Player) :
    (g.makeMove pos sym).2.board.length = g.board.length ∧
    (g.board.length = 9 → (g.makeMove pos sym).1 = true →
        ∃ n : Nat, n < 9 ∧ pos = JsKey.idx (n : Int) ∧ g.board[n]? = some none ∧
          (g.makeMove pos sym).2.board = g.board.set n (some sym)) ∧
    (jsGet g.board pos ≠ JsVal.null → g.makeMove pos sym = (false, g)) := by
  refine ⟨?_, ?_, fun hne => makeMove_rejected g pos sym (Or.inl hne)⟩
  · rcases makeMove_guard_cases g pos sym with ⟨h1, h2, h3⟩ | hrej
    · rw [makeMove_accepted g pos sym h1 h2 h3]
      obtain ⟨n, rfl, hcell⟩ := jsGet_null_elim g.board pos h1
      simp only [checkWinner_board]
      rw [jsSet_idx]
      exact List.length_set g.board n (some sym)
    · rw [hrej]
  · intro hlen hacc
    obtain ⟨h1, h2, h3⟩ := makeMove_accepted_flags g pos sym hacc
    obtain ⟨n, rfl, hcell⟩ := jsGet_null_elim g.board pos h1
    have hlt : n < g.board.length := by
      rcases List.getElem?_eq_some.1 hcell with ⟨hlt, -⟩
      exact hlt
    refine ⟨n, by omega, rfl, hcell, ?_⟩
    rw [makeMove_accepted g (JsKey.idx (n : Int)) sym h1 h2 h3]
    simp only [checkWinner_board]
    exact jsSet_idx g.board n (some sym)

theorem c10_makeMove_bounds_witness :
    ((Game.new "wS" "a" "b" 0).makeMove (JsKey.idx 0) Player.X).2.board.length
      = (Game.new "wS" "a" "b" 0).board.length ∧
    (∃ n : Nat, n < 9 ∧ JsKey.idx 0 = JsKey.idx (n : Int) ∧
      (Game.new "wS" "a" "b" 0).board[n]? = some none ∧
      ((Game.new "wS" "a" "b" 0).makeMove (JsKey.idx 0) Player.X).2.board
        = (Game.new "wS" "a" "b" 0).board.set n (some Player.X)) ∧
    (Game.new "wS" "a" "b" 0).makeMove (JsKey.idx 9) Player.X
      = (false, Game.new "wS" "a" "b" 0) :=
  ⟨(c10_makeMove_bounds (Game.new "wS" "a" "b" 0) (JsKey.idx 0) Player.X).1,
   (c10_makeMove_bounds (Game.new "wS" "a" "b" 0) (JsKey.idx 0) Player.X).2.1
     (by decide) (by decide),
   (c10_makeMove_bounds (Game.new "wS" "a" "b" 0) (JsKey.idx 9) Player.X).2.2
     (by decide)⟩

end TicTacToe
